import Mathlib

/-!
Verification of the traefik-cloud-saver decision engine against its code.

Shallow embedding of the Go sources:
* `metrics.go` (`parseMetricLine`, `MetricsCollector.GetServiceRates`)
* `cloud/gcp/compute.go` (`waitForOperation`, `StopInstance`)
* `cloud/gcp/service.go` (`ScaleDown`, `ScaleUp`, `GetCurrentScale`)
* `cloud/gcp/auth.go` (`TokenManager.GetToken` / `fetchToken`)
* `cloud/mock/service.go` (mock `ScaleUp` / `ScaleDown` / `Reset`)

Strings are modelled as `List Char` (Go byte strings; all inputs of interest
are ASCII).  Go's float64 metric values are modelled as `ℚ`; the facts proved
here only use values and arithmetic (equality of counts, zero differences)
on which float64 and ℚ agree exactly.  Fallible Go functions return
`Option`/`Except`; a Go runtime panic is modelled as `none`.
-/

namespace CloudSaver

/-! ## Go string primitives (`strings.Split`, `strings.Index`, slicing) -/

/-- Go `strings.Split(s, " ")`: split on every single space, keeping empty
segments.  Always returns at least one segment. -/
def splitOnSpace : List Char → List (List Char)
  | [] => [[]]
  | c :: rest =>
    match splitOnSpace rest with
    | [] => [[]]
    | p :: ps => if c = ' ' then [] :: p :: ps else (c :: p) :: ps

/-- Go `strings.Index(s, pat)`: index of the first occurrence of `pat` in `s`,
`none` for Go's `-1`. -/
def indexOfSub (pat : List Char) : List Char → Option Nat
  | [] => if pat = [] then some 0 else none
  | c :: rest =>
    if pat.isPrefixOf (c :: rest) then some 0
    else (indexOfSub pat rest).map (· + 1)

/-- Go slice expression `s[lo:hi]`: defined only when `lo ≤ hi ≤ len(s)`,
otherwise the Go program panics (modelled as `none`). -/
def goSlice (s : List Char) (lo hi : Nat) : Option (List Char) :=
  if lo ≤ hi ∧ hi ≤ s.length then some ((s.drop lo).take (hi - lo)) else none

/-! ## `fmt.Sscanf(s, "%f", &count)`

Go's `Sscanf` with a single `%f` verb skips leading blanks, then greedily
reads a float token (optional sign, decimal digits with an optional decimal
point, an optional exponent part) and converts it; input after the token is
ignored, so `"42abc"` scans successfully as `42`.  It fails when no valid
token prefix exists.  (The hexadecimal / `Inf` / `NaN` forms accepted by Go
are not representable in `ℚ` and never occur in metric lines; they are
omitted from the model.) -/

/-- Value of a digit list read as a decimal natural number. -/
def digitsToNat (ds : List Char) : Nat :=
  ds.foldl (fun acc c => acc * 10 + (c.toNat - '0'.toNat)) 0

/-- Split off the maximal leading run of decimal digits. -/
def spanDigits (s : List Char) : List Char × List Char :=
  (s.takeWhile Char.isDigit, s.dropWhile Char.isDigit)

/-- Parse the optional exponent part: `none` input rest means no exponent
marker; `some none` means a malformed exponent (scan error); `some (some e)`
is a parsed exponent. -/
def scanExponent (s : List Char) : Option (Option Int) :=
  match s with
  | 'e' :: rest => scanExponentDigits rest
  | 'E' :: rest => scanExponentDigits rest
  | _ => some (some 0)
where
  scanExponentDigits (rest : List Char) : Option (Option Int) :=
    let (sign, rest') :=
      match rest with
      | '+' :: r => ((1 : Int), r)
      | '-' :: r => ((-1 : Int), r)
      | r => (1, r)
    let (ds, _) := spanDigits rest'
    if ds = [] then some none else some (some (sign * digitsToNat ds))

/-- Go `fmt.Sscanf(s, "%f", &f)`: `some f` on success, `none` on a scan error.
The value `sign · (intDigits.fracDigits) · 10^e` is assembled with integer
arithmetic and a single `mkRat`, which is the exact rational the decimal
token denotes. -/
def sscanfFloat (s : List Char) : Option ℚ :=
  let s := s.dropWhile (fun c => c = ' ' ∨ c = '\t')
  let (sign, s₁) : Int × List Char :=
    match s with
    | '+' :: r => (1, r)
    | '-' :: r => (-1, r)
    | r => (1, r)
  let (intDs, s₂) := spanDigits s₁
  let (fracDs, s₃) :=
    match s₂ with
    | '.' :: r => spanDigits r
    | r => ([], r)
  if intDs = [] ∧ fracDs = [] then none
  else
    match scanExponent s₃ with
    | some (some e) =>
      let m : Int := sign * (digitsToNat intDs * 10 ^ fracDs.length + digitsToNat fracDs)
      some (mkRat (m * 10 ^ e.toNat) (10 ^ (fracDs.length + (-e).toNat)))
    | _ => none

/-! ## `parseMetricLine` (metrics.go)

```go
func parseMetricLine(line string) (string, float64, bool) {
    if parts := strings.Split(line, " "); len(parts) == 2 {
        _, err := fmt.Sscanf(parts[1], "%f", &count)
        if err != nil { return "", 0, false }
        if start := strings.Index(line, `service="`); start != -1 {
            start += len(`service="`)
            if end := strings.Index(line[start:], `"`); end != -1 {
                serviceName = line[start : start+end]
                if responseCode := strings.Index(line, `code="`); responseCode != -1 {
                    code := line[responseCode+len(`code="`) : responseCode+len(`code="`)+3]
                    if code != "200" && code != "" { return "", 0, false }
                    return serviceName, count, true
                }
                return serviceName, count, true
            }
        }
    }
    return "", 0, false
}
```
The result triple is `(serviceName, count, ok)`; `none` models the panic that
the unguarded slice `line[i : i+3]` raises when `i+3 > len(line)`. -/

def serviceLabelPat : List Char := "service=\"".toList
def codeLabelPat : List Char := "code=\"".toList

def parseMetricLine (line : List Char) : Option (List Char × ℚ × Bool) :=
  match splitOnSpace line with
  | [_, p1] =>
    match sscanfFloat p1 with
    | none => some ([], 0, false)
    | some count =>
      match indexOfSub serviceLabelPat line with
      | none => some ([], 0, false)
      | some st =>
        let start := st + serviceLabelPat.length
        match indexOfSub ['"'] (line.drop start) with
        | none => some ([], 0, false)
        | some en =>
          let serviceName := (line.drop start).take en
          match indexOfSub codeLabelPat line with
          | none => some (serviceName, count, true)
          | some rc =>
            match goSlice line (rc + codeLabelPat.length)
                (rc + codeLabelPat.length + 3) with
            | none => none
            | some code =>
              if code ≠ "200".toList ∧ code ≠ [] then some ([], 0, false)
              else some (serviceName, count, true)
  | _ => some ([], 0, false)

/-! ## Association-list model of Go maps

A Go `map[K]V` is modelled as an association list with at most one binding
per key; reading an absent key yields Go's zero value through `getD`. -/

/-- Go map read `m[k]` together with its `ok` bit: `none` when absent. -/
def mapGet [DecidableEq K] (m : List (K × V)) (k : K) : Option V :=
  match m with
  | [] => none
  | (k', v) :: rest => if k = k' then some v else mapGet rest k

/-- Go map write `m[k] = v`. -/
def mapSet [DecidableEq K] (m : List (K × V)) (k : K) (v : V) : List (K × V) :=
  match m with
  | [] => [(k, v)]
  | (k', v') :: rest => if k = k' then (k, v) :: rest else (k', v') :: mapSet rest k v

/-! ## `MetricsCollector.GetServiceRates` (metrics.go)

```go
currentCounts, err := mc.fetchServiceRequests()
now := time.Now()
duration := now.Sub(mc.lastTime)
for service, count := range currentCounts {
    var ratePerMin float64
    if len(mc.lastCounts) == 0 {
        ratePerMin = count
    } else {
        lastCount := mc.lastCounts[service]
        requestDiff := count - lastCount
        if duration.Seconds() > 0 {
            ratePerMin = (requestDiff / duration.Seconds()) * 60
        }
    }
    rates[service] = &ServiceRate{service, count, ratePerMin, duration}
}
mc.lastCounts = currentCounts
mc.lastTime = now
```
Times are instants in seconds (`ℚ`); the successfully fetched
`currentCounts` is an input. -/

structure ServiceRate (K : Type) where
  serviceName : K
  total : ℚ
  perMin : ℚ
  durationSec : ℚ
  deriving DecidableEq

structure MetricsCollector (K : Type) where
  lastCounts : List (K × ℚ)
  lastTime : ℚ
  deriving DecidableEq

/-- The `ratePerMin` computation for one service of the loop body. -/
def ratePerMin [DecidableEq K] (lastCounts : List (K × ℚ)) (durationSec : ℚ)
    (service : K) (count : ℚ) : ℚ :=
  if lastCounts = [] then count
  else
    let lastCount := (mapGet lastCounts service).getD 0
    let requestDiff := count - lastCount
    if 0 < durationSec then requestDiff / durationSec * 60 else 0

def GetServiceRates [DecidableEq K] (mc : MetricsCollector K)
    (currentCounts : List (K × ℚ)) (now : ℚ) :
    List (K × ServiceRate K) × MetricsCollector K :=
  let duration := now - mc.lastTime
  (currentCounts.map fun sc =>
      (sc.1, ⟨sc.1, sc.2, ratePerMin mc.lastCounts duration sc.1 sc.2, duration⟩),
    ⟨currentCounts, now⟩)

/-! ## Compute client: `waitForOperation` and `StopInstance` (cloud/gcp/compute.go)

The network and the clock are abstracted into inputs.  `doRequest` outcomes
are `Except GoErr`; the polling loop's `select` is driven by a list of
`WaitEvent`s, one per loop iteration, recording which channel fired
(`ctx.Done()` with its cause, or the ticker with that poll's outcome).
`ctx.WithTimeout` guarantees the real loop always sees an event, so a run
that exhausts its event list is left undetermined (`none`). -/

structure Instance where
  name : List Char
  status : List Char
  deriving DecidableEq

structure Operation where
  name : List Char
  status : List Char
  opError : Option (List (List Char))
  deriving DecidableEq

/-- Cause carried by `ctx.Err()`. -/
inductive CtxErr
  | deadlineExceeded
  | canceled
  deriving DecidableEq

/-- Errors produced by `doRequest` (and by request-level failures inside
`GetInstance` / `GetOperation`). -/
inductive GoErr
  | provider (msg : List Char)
  | httpStatus (code : Nat)
  | authFailed (msg : List Char)
  | ctxAborted (cause : CtxErr)
  | decodeFailed
  deriving DecidableEq

/-- The distinct `fmt.Errorf` sites of the stop-and-wait protocol. -/
inductive StopErr
  | stopRequestFailed (e : GoErr)
  | pollRequestFailed (e : GoErr)
  | ctxDoneDuringWait (cause : CtxErr)
  | operationFailed (op : Operation)
  | getInstanceFailed (e : GoErr)
  | instanceNotStopped (status : List Char)
  deriving DecidableEq

/-- The literal format-string prefix of the `fmt.Errorf` call that built the
error: this is the error's explicit label in the log output. -/
def StopErr.label : StopErr → List Char
  | .stopRequestFailed _ => [] -- returned unwrapped: `return nil, err`
  | .pollRequestFailed _ => "failed to get operation status: ".toList
  | .ctxDoneDuringWait _ => "timeout waiting for operation to complete: ".toList
  | .operationFailed _ => "operation failed: ".toList
  | .getInstanceFailed _ => "failed to get instance: ".toList
  | .instanceNotStopped _ => "instance failed to stop: status is ".toList

/-- Which `select` case fired in one iteration of the polling loop. -/
inductive WaitEvent
  | ctxDone (cause : CtxErr)
  | tick (res : Except GoErr Operation)

def waitForOperation : List WaitEvent → Option (Except StopErr Operation)
  | [] => none
  | .ctxDone cause :: _ => some (.error (.ctxDoneDuringWait cause))
  | .tick (.error e) :: _ => some (.error (.pollRequestFailed e))
  | .tick (.ok op) :: rest =>
    if op.status = "DONE".toList then
      match op.opError with
      | some _ => some (.error (.operationFailed op))
      | none => some (.ok op)
    else waitForOperation rest

/-- The environment one `StopInstance` call runs against: the initial stop
POST's outcome, the polling loop's events, and the final re-fetch outcome. -/
structure StopRun where
  stopResp : Except GoErr Operation
  waitEvents : List WaitEvent
  instResp : Except GoErr Instance

def StopInstance (run : StopRun) : Option (Except StopErr Operation) :=
  match run.stopResp with
  | .error e => some (.error (.stopRequestFailed e))
  | .ok _ =>
    match waitForOperation run.waitEvents with
    | none => none
    | some (.error e) => some (.error e)
    | some (.ok op) =>
      match run.instResp with
      | .error e => some (.error (.getInstanceFailed e))
      | .ok inst =>
        if inst.status = "TERMINATED".toList then some (.ok op)
        else some (.error (.instanceNotStopped inst.status))

/-! ## GCP `Service.GetCurrentScale` and `Service.ScaleDown` (cloud/gcp/service.go) -/

inductive SvcErr
  | getInstanceFailed (e : GoErr)  -- "failed to get instance %s: %w"
  | stopInstanceFailed (e : StopErr)  -- "failed to stop instance %s: %w"
  deriving DecidableEq

/-- The `switch instance.Status` of `GetCurrentScale`: the scale together
with whether the default branch printed its transitional-state warning. -/
def scaleOfStatus (status : List Char) : Int × Bool :=
  if status = "RUNNING".toList ∨ status = "PROVISIONING".toList
      ∨ status = "STAGING".toList then (1, false)
  else if status = "TERMINATED".toList ∨ status = "SUSPENDED".toList
      ∨ status = "STOPPING".toList then (0, false)
  else (0, true)

def GetCurrentScale (fetch : Except GoErr Instance) : Except SvcErr (Int × Bool) :=
  match fetch with
  | .error e => .error (.getInstanceFailed e)
  | .ok inst => .ok (scaleOfStatus inst.status)

/-- Model of `Service.ScaleDown`.  The `Bool` records whether the network stop call
(`compute.StopInstance`) was issued. -/
def ScaleDown (fetch : Except GoErr Instance) (stop : StopRun) :
    Option (Except SvcErr Unit × Bool) :=
  match fetch with
  | .error e => some (.error (.getInstanceFailed e), false)
  | .ok inst =>
    if inst.status = "TERMINATED".toList ∨ inst.status = "STOPPING".toList then
      some (.ok (), false)
    else
      match StopInstance stop with
      | none => none
      | some (.error e) => some (.error (.stopInstanceFailed e), true)
      | some (.ok _) => some (.ok (), true)

/-! ## `TokenManager.GetToken` / `fetchToken` (cloud/gcp/auth.go)

```go
func (tm *TokenManager) GetToken(ctx) (string, error) {
    if tm.currentToken != nil && time.Now().Before(tm.expiresAt) {
        return tm.currentToken.AccessToken, nil
    }
    return tm.fetchToken(ctx) // wraps error
}
func (tm *TokenManager) fetchToken(ctx) (string, error) {
    tm.mu.Lock(); defer tm.mu.Unlock()
    if tm.currentToken != nil && time.Now().Before(tm.expiresAt) {
        return tm.currentToken.AccessToken, nil
    }
    ... sign JWT, POST to token endpoint ...  // one HTTP token request
    tm.currentToken = &tokenResp
    tm.expiresAt = time.Now().Add(time.Duration(tokenResp.ExpiresIn) * time.Second)
    return tokenResp.AccessToken, nil
}
```
Concurrency is modelled by sequentially-consistent interleavings: the body
of `fetchToken` holds the mutex, so the critical sections of racing callers
execute serialized, each at its own instant (`Nat` seconds);
`httpRequests` counts POSTs to the token endpoint. -/

structure TokenResponse where
  accessToken : List Char
  expiresIn : Nat
  deriving DecidableEq

structure TokenManager where
  currentToken : Option TokenResponse
  expiresAt : Nat
  httpRequests : Nat
  deriving DecidableEq

/-- Validity check `tm.currentToken != nil && now.Before(tm.expiresAt)`. -/
def tokenIsValid (tm : TokenManager) (now : Nat) : Prop :=
  tm.currentToken.isSome ∧ now < tm.expiresAt

instance (tm : TokenManager) (now : Nat) : Decidable (tokenIsValid tm now) :=
  inferInstanceAs (Decidable (_ ∧ _))

/-- The token exchange's outcome as the server would deliver it (signing,
POST, decoding collapsed into one abstract result). -/
def TokenEnv := Except GoErr TokenResponse

/-- Body of `fetchToken`, executed under the mutex at instant `now`. -/
def fetchToken (env : TokenEnv) (now : Nat) (tm : TokenManager) :
    TokenManager × Except GoErr (List Char) :=
  if h : tokenIsValid tm now then
    (tm, .ok (tm.currentToken.get h.1).accessToken)
  else
    match env with
    | .error e => ({ tm with httpRequests := tm.httpRequests + 1 }, .error e)
    | .ok resp =>
      (⟨some resp, now + resp.expiresIn, tm.httpRequests + 1⟩, .ok resp.accessToken)

/-- Model of `GetToken`: unlocked fast-path check at `nowFast`, then (only when that
fails) the serialized `fetchToken` critical section at `nowCS`. -/
def GetToken (env : TokenEnv) (nowFast nowCS : Nat) (tm : TokenManager) :
    TokenManager × Except GoErr (List Char) :=
  if h : tokenIsValid tm nowFast then
    (tm, .ok (tm.currentToken.get h.1).accessToken)
  else
    fetchToken env nowCS tm

/-- Serialized critical sections of N callers whose fast-path checks all
failed: caller i runs `fetchToken` at instant `times[i]`, in mutex order. -/
def runFetchers (env : TokenEnv) (times : List Nat) (tm : TokenManager) :
    TokenManager × List (Except GoErr (List Char)) :=
  match times with
  | [] => (tm, [])
  | t :: rest =>
    let (tm', r) := fetchToken env t tm
    let (tm'', rs) := runFetchers env rest tm'
    (tm'', r :: rs)

/-! ## Mock cloud service (cloud/mock/service.go)

`scale` is a Go `map[string]int32`; int32 arithmetic is exact two's
complement (`wrap32`).  `checkFailure` increments `opCount` and fails once
`failAfter` is exceeded; `ScaleUp` does not call it.  `Reset` rebuilds the
scale map from the configured initial values and clears the injected
errors, leaving `opCount` untouched. -/

/-- Two's-complement wrap of an integer into int32 range. -/
def wrap32 (x : Int) : Int := (x + 2 ^ 31) % 2 ^ 32 - 2 ^ 31

structure MockConfig (K : Type) where
  initialScale : List (K × Int)
  failAfter : Nat
  deriving DecidableEq

structure MockService (K : Type) where
  scale : List (K × Int)
  opCount : Nat
  failAfter : Nat
  scaleErr : Bool
  deriving DecidableEq

inductive MockErr
  | failedAfter (n : Nat)   -- "mock service failed after %d operations"
  | notFound                -- "service %s not found"
  | injectedScaleErr        -- the configured scaleErr value
  deriving DecidableEq

/-- Model of `checkFailure`: increments `opCount`, fails when the incremented count
exceeds a positive `failAfter`. -/
def checkFailure (s : MockService K) : MockService K × Option MockErr :=
  let s := { s with opCount := s.opCount + 1 }
  if 0 < s.failAfter ∧ s.failAfter < s.opCount then (s, some (.failedAfter s.failAfter))
  else (s, none)

def MockService.ScaleDown [DecidableEq K] (s : MockService K) (name : K) :
    MockService K × Except MockErr Unit :=
  match checkFailure s with
  | (s, some e) => (s, .error e)
  | (s, none) =>
    match mapGet s.scale name with
    | none => (s, .error .notFound)
    | some current =>
      if current ≤ 0 then (s, .ok ())
      else ({ s with scale := mapSet s.scale name (wrap32 (current - 1)) }, .ok ())

def MockService.ScaleUp [DecidableEq K] (s : MockService K) (name : K) :
    MockService K × Except MockErr Unit :=
  if s.scaleErr then (s, .error .injectedScaleErr)
  else
    ({ s with
        scale := mapSet s.scale name (wrap32 ((mapGet s.scale name).getD 0 + 1)) },
      .ok ())

/-- Model of `Reset`: replace the scale map by the configured initial values (the
config's per-key copy of a duplicate-free map) and clear injected errors. -/
def MockService.Reset [DecidableEq K] (cfg : MockConfig K) (s : MockService K) :
    MockService K :=
  { s with scale := cfg.initialScale, scaleErr := false }

/-- One step of a serialized interleaving: `true` is a `ScaleUp` on the
resource, `false` a `ScaleDown`. -/
def mockStep [DecidableEq K] (name : K) (s : MockService K) (up : Bool) : MockService K :=
  if up then (s.ScaleUp name).1 else (s.ScaleDown name).1

/-- A serialized interleaving of scale operations on one resource. -/
def runMockOps [DecidableEq K] (name : K) (s : MockService K) (ops : List Bool) :
    MockService K :=
  ops.foldl (mockStep name) s

/-! ## Theorems -/

/-- Example metric line of the spec: `traefik_service_requests_total{service="svc1"} 42`. -/
def exampleLine : List Char :=
  "traefik_service_requests_total\x7bservice=\"svc1\"\x7d 42".toList

/-- Same line with a non-numeric suffix glued to the trailing value. -/
def exampleLineJunk : List Char :=
  "traefik_service_requests_total\x7bservice=\"svc1\"\x7d 42abc".toList

/-- A two-part line whose `code="` label value is cut short by the end of
the line: `a{service="s",code=" 4`. -/
def truncatedCodeLine : List Char := "a\x7bservice=\"s\",code=\" 4".toList

/-- Claim C6 (amended): `parseMetricLine` on the example line returns
`("svc1", 42, true)`; every line without a `service="` label returns
`("", 0, false)`; and every two-part line whose trailing value has no
parseable numeric prefix (its `Sscanf "%f"` fails) returns
`("", 0, false)`.  (A trailing value with a numeric prefix followed by
junk is accepted with that prefix — see the counterexample.) -/
theorem parseMetricLine_service_and_value_checks :
    parseMetricLine exampleLine = some ("svc1".toList, 42, true)
    ∧ (∀ line : List Char, indexOfSub serviceLabelPat line = none →
        parseMetricLine line = some ([], 0, false))
    ∧ (∀ (line p0 p1 : List Char), splitOnSpace line = [p0, p1] →
        sscanfFloat p1 = none → parseMetricLine line = some ([], 0, false)) := by
  refine ⟨by decide, ?_, ?_⟩
  · intro line h
    unfold parseMetricLine
    split
    · split
      · rfl
      · rw [h]
    · rfl
  · intro line p0 p1 hs hf
    unfold parseMetricLine
    rw [hs]
    simp [hf]

/-- Claim C6 (counterexample): the line whose trailing value is the
non-numeric string `42abc` is accepted as `("svc1", 42, true)` rather than
rejected with `("", 0, false)`: Go's `Sscanf "%f"` reads the numeric
prefix and ignores the rest. -/
theorem parseMetricLine_accepts_nonnumeric_suffix :
    parseMetricLine exampleLineJunk = some ("svc1".toList, 42, true)
    ∧ parseMetricLine exampleLineJunk ≠ some ([], 0, false) := by
  refine ⟨by decide, by decide⟩

/-- Claim C6 (witness): the universally quantified rejection branches at
concrete lines — no `service` label, and a trailing value with no numeric
prefix. -/
theorem parseMetricLine_service_and_value_checks_witness :
    parseMetricLine "traefik_service_requests_total 5".toList = some ([], 0, false)
    ∧ parseMetricLine "traefik_service_requests_total\x7bservice=\"s\"\x7d abc".toList
        = some ([], 0, false) :=
  ⟨parseMetricLine_service_and_value_checks.2.1 _ (by decide),
    parseMetricLine_service_and_value_checks.2.2 _
      "traefik_service_requests_total\x7bservice=\"s\"\x7d".toList "abc".toList
      (by decide) (by decide)⟩

/-- Claim C7: `parseMetricLine` is NOT panic-free: on the two-part line
`a{service="s",code=" 4` the slice `line[i:i+3]` used to read the `code`
label value runs past the end of the line, and the Go program panics with
a slice-bounds error (modelled as `none`). -/
theorem parseMetricLine_panics_on_truncated_code_label :
    parseMetricLine truncatedCodeLine = none := by decide

/-- Claim C8: `GetCurrentScale` is a pure mapping of the fetched instance
status: RUNNING, PROVISIONING and STAGING map to scale 1; TERMINATED,
SUSPENDED and STOPPING map to scale 0; every other string maps to scale 0
with the logged warning, and none of these paths returns an error. -/
theorem GetCurrentScale_pure_status_map (inst : Instance) :
    GetCurrentScale (.ok inst) = .ok (scaleOfStatus inst.status)
    ∧ (inst.status = "RUNNING".toList ∨ inst.status = "PROVISIONING".toList
        ∨ inst.status = "STAGING".toList → scaleOfStatus inst.status = (1, false))
    ∧ (inst.status = "TERMINATED".toList ∨ inst.status = "SUSPENDED".toList
        ∨ inst.status = "STOPPING".toList → scaleOfStatus inst.status = (0, false))
    ∧ (¬(inst.status = "RUNNING".toList ∨ inst.status = "PROVISIONING".toList
          ∨ inst.status = "STAGING".toList
          ∨ inst.status = "TERMINATED".toList ∨ inst.status = "SUSPENDED".toList
          ∨ inst.status = "STOPPING".toList) →
        scaleOfStatus inst.status = (0, true)) := by
  refine ⟨rfl, ?_, ?_, ?_⟩
  · intro h
    rcases h with h | h | h <;> rw [h] <;> decide
  · intro h
    rcases h with h | h | h <;> rw [h] <;> decide
  · intro h
    push_neg at h
    obtain ⟨h1, h2, h3, h4, h5, h6⟩ := h
    unfold scaleOfStatus
    rw [if_neg (by tauto), if_neg (by tauto)]

/-- Claim C8 (witness): the three mapping regimes at concrete statuses. -/
theorem GetCurrentScale_pure_status_map_witness :
    scaleOfStatus "RUNNING".toList = (1, false)
    ∧ scaleOfStatus "TERMINATED".toList = (0, false)
    ∧ scaleOfStatus "MIGRATING".toList = (0, true) :=
  ⟨(GetCurrentScale_pure_status_map ⟨[], "RUNNING".toList⟩).2.1 (by decide),
    (GetCurrentScale_pure_status_map ⟨[], "TERMINATED".toList⟩).2.2.1 (by decide),
    (GetCurrentScale_pure_status_map ⟨[], "MIGRATING".toList⟩).2.2.2 (by decide)⟩

/-- Claim C9: `ScaleDown` on an instance fetched as TERMINATED or STOPPING
returns success without issuing the network stop call; for every other
fetched status any determined outcome has the stop call issued. -/
theorem ScaleDown_noop_when_already_stopped :
    (∀ (inst : Instance) (stop : StopRun),
        inst.status = "TERMINATED".toList ∨ inst.status = "STOPPING".toList →
        ScaleDown (.ok inst) stop = some (.ok (), false))
    ∧ (∀ (inst : Instance) (stop : StopRun) (r : Except SvcErr Unit × Bool),
        ¬(inst.status = "TERMINATED".toList ∨ inst.status = "STOPPING".toList) →
        ScaleDown (.ok inst) stop = some r → r.2 = true) := by
  constructor
  · intro inst stop h
    rcases h with h | h <;> simp [ScaleDown, h]
  · intro inst stop r h he
    simp only [ScaleDown] at he
    rw [if_neg h] at he
    rcases hS : StopInstance stop with _ | e
    · rw [hS] at he; exact absurd he (by simp)
    · rcases e with e | op <;> rw [hS] at he <;>
        simp only [Option.some.injEq] at he <;> rw [← he]

/-- Claim C9 (witness): a TERMINATED instance is a no-op success; a RUNNING
instance with a failing stop request still has the stop call issued. -/
theorem ScaleDown_noop_when_already_stopped_witness :
    ScaleDown (.ok ⟨"i".toList, "TERMINATED".toList⟩)
        ⟨.error .decodeFailed, [], .error .decodeFailed⟩ = some (.ok (), false)
    ∧ ((Except.error (.stopInstanceFailed (.stopRequestFailed .decodeFailed)) :
          Except SvcErr Unit), true).2 = true :=
  ⟨ScaleDown_noop_when_already_stopped.1 _ _ (by decide),
    ScaleDown_noop_when_already_stopped.2 ⟨"i".toList, "RUNNING".toList⟩
      ⟨.error .decodeFailed, [], .error .decodeFailed⟩ _ (by decide) rfl⟩

/-- Claim C4: for every service in the scrape, with an empty baseline map
its `perMinuteRate` equals its raw cumulative count; with a non-empty
baseline and positive elapsed time it equals
`(currentTotal - previousTotal) / elapsedSeconds * 60`, so a call with
per-service counts unchanged from the baseline and positive elapsed time
yields a `perMinuteRate` of exactly 0. -/
theorem GetServiceRates_rate_formula {K : Type} [DecidableEq K]
    (mc : MetricsCollector K) (counts : List (K × ℚ)) (now : ℚ) (s : K) (c : ℚ)
    (hmem : (s, c) ∈ counts) :
    ∃ r : ServiceRate K,
      (s, r) ∈ (GetServiceRates mc counts now).1
      ∧ r.total = c
      ∧ (mc.lastCounts = [] → r.perMin = c)
      ∧ (mc.lastCounts ≠ [] → 0 < now - mc.lastTime →
          r.perMin = (c - (mapGet mc.lastCounts s).getD 0) / (now - mc.lastTime) * 60)
      ∧ (mc.lastCounts ≠ [] → 0 < now - mc.lastTime →
          (mapGet mc.lastCounts s).getD 0 = c → r.perMin = 0) := by
  refine ⟨⟨s, c, ratePerMin mc.lastCounts (now - mc.lastTime) s c, now - mc.lastTime⟩,
    ?_, rfl, ?_, ?_, ?_⟩
  · simp only [GetServiceRates]
    exact List.mem_map.mpr ⟨(s, c), hmem, rfl⟩
  · intro h
    simp [ratePerMin, h]
  · intro h hd
    simp [ratePerMin, h, hd]
  · intro h hd heq
    simp [ratePerMin, h, hd, heq]

/-- Claim C4 (witness): baseline `{a ↦ 42}` taken at time 0, scrape
`{a ↦ 42}` at time 1 second: the produced rate is exactly 0. -/
theorem GetServiceRates_rate_formula_witness :
    ∃ r : ServiceRate (List Char),
      ("a".toList, r) ∈
        (GetServiceRates ⟨[("a".toList, 42)], 0⟩ [("a".toList, 42)] 1).1
      ∧ r.perMin = 0 := by
  obtain ⟨r, h1, -, -, -, h5⟩ :=
    GetServiceRates_rate_formula ⟨[("a".toList, 42)], 0⟩ [("a".toList, 42)] 1
      "a".toList 42 (by simp)
  exact ⟨r, h1, h5 (by simp) (by norm_num) (by simp [mapGet])⟩

/-- Claim C10: after a successful `GetServiceRates` call the stored
baseline is exactly the newest scrape's count map — replaced wholesale —
so every service absent from the newest scrape is absent from the baseline
used by the next call. -/
theorem GetServiceRates_baseline_wholesale {K : Type} [DecidableEq K]
    (mc : MetricsCollector K) (counts : List (K × ℚ)) (now : ℚ) :
    (GetServiceRates mc counts now).2.lastCounts = counts
    ∧ ∀ s : K, mapGet counts s = none →
        mapGet (GetServiceRates mc counts now).2.lastCounts s = none :=
  ⟨rfl, fun _ h => h⟩

/-- Claim C10 (witness): a baseline `{a, b}` is displaced by the scrape
`{a}`; `b` is gone from the stored baseline. -/
theorem GetServiceRates_baseline_wholesale_witness :
    mapGet (GetServiceRates (⟨[("a".toList, 1), ("b".toList, 2)], 0⟩ :
        MetricsCollector (List Char)) [("a".toList, 3)] 1).2.lastCounts
      "b".toList = none :=
  (GetServiceRates_baseline_wholesale ⟨[("a".toList, 1), ("b".toList, 2)], 0⟩
    [("a".toList, 3)] 1).2 "b".toList (by decide)

/-- Helper: a `waitForOperation` run that resolves with `ok op` can only
have done so through the `DONE`-with-no-error branch. -/
theorem waitForOperation_ok_done {events : List WaitEvent} {op : Operation}
    (h : waitForOperation events = some (.ok op)) :
    op.status = "DONE".toList ∧ op.opError = none := by
  induction events with
  | nil => simp [waitForOperation] at h
  | cons e rest ih =>
    cases e with
    | ctxDone c => simp [waitForOperation] at h
    | tick res =>
      cases res with
      | error e => simp [waitForOperation] at h
      | ok o =>
        simp only [waitForOperation] at h
        by_cases hd : o.status = "DONE".toList
        · rw [if_pos hd] at h
          cases ho : o.opError with
          | some x => rw [ho] at h; simp at h
          | none =>
            rw [ho] at h
            simp only [Option.some.injEq, Except.ok.injEq] at h
            subst h
            exact ⟨hd, ho⟩
        · rw [if_neg hd] at h
          exact ih h

/-- Claim C2: `StopInstance` produces a non-error result only when the
polled operation resolved as DONE with no operation error and the
re-fetched instance has status TERMINATED; every other determined outcome
is an error. -/
theorem StopInstance_no_false_success (run : StopRun) (op : Operation)
    (h : StopInstance run = some (.ok op)) :
    op.status = "DONE".toList ∧ op.opError = none
    ∧ ∃ inst : Instance, run.instResp = .ok inst
        ∧ inst.status = "TERMINATED".toList := by
  obtain ⟨sr, ev, ir⟩ := run
  cases sr with
  | error e => simp [StopInstance] at h
  | ok op₀ =>
    simp only [StopInstance] at h
    rcases hw : waitForOperation ev with _ | w <;> rw [hw] at h
    · simp at h
    · rcases w with e | op'
      · simp at h
      · cases ir with
        | error e => simp at h
        | ok inst =>
          simp only at h
          by_cases ht : inst.status = "TERMINATED".toList
          · rw [if_pos ht] at h
            simp only [Option.some.injEq, Except.ok.injEq] at h
            subst h
            obtain ⟨hD, hE⟩ := waitForOperation_ok_done hw
            exact ⟨hD, hE, inst, rfl, ht⟩
          · rw [if_neg ht] at h
            simp at h

/-- Claim C2 (witness): a run whose single poll returns DONE without error
and whose re-fetch returns a TERMINATED instance. -/
theorem StopInstance_no_false_success_witness :
    ("DONE".toList : List Char) = "DONE".toList
    ∧ (none : Option (List (List Char))) = none
    ∧ ∃ inst : Instance,
        (Except.ok (⟨"i".toList, "TERMINATED".toList⟩ : Instance) :
            Except GoErr Instance) = .ok inst
        ∧ inst.status = "TERMINATED".toList :=
  StopInstance_no_false_success
    ⟨.ok ⟨"o".toList, "PENDING".toList, none⟩,
      [.tick (.ok ⟨"o".toList, "DONE".toList, none⟩)],
      .ok ⟨"i".toList, "TERMINATED".toList⟩⟩
    ⟨"o".toList, "DONE".toList, none⟩ rfl

/-- Helper: the polling loop passes over iterations whose poll returned a
not-yet-DONE operation without resolving. -/
theorem waitForOperation_skips_pending (pre tail : List WaitEvent)
    (hpre : ∀ e ∈ pre, ∃ op : Operation,
        e = .tick (.ok op) ∧ op.status ≠ "DONE".toList) :
    waitForOperation (pre ++ tail) = waitForOperation tail := by
  induction pre with
  | nil => rfl
  | cons e pre ih =>
    obtain ⟨op, he, hnd⟩ := hpre e (List.mem_cons_self e pre)
    subst he
    simp only [List.cons_append, waitForOperation]
    rw [if_neg hnd]
    exact ih fun e' he' => hpre e' (List.mem_cons_of_mem _ he')

/-- Claim C1 (amended): when `ctx.Done()` fires first (after any number of
not-yet-DONE polls), the loop returns the single `ctx.Done` error kind
wrapping the context's cause — the label is the fixed string
`timeout waiting for operation to complete: ` for timeout AND for
cancellation alike, the two being distinguishable only through the wrapped
cause; the kind is distinct from every provider-error kind. -/
theorem waitForOperation_ctx_done_uniform_label (pre rest : List WaitEvent)
    (c : CtxErr)
    (hpre : ∀ e ∈ pre, ∃ op : Operation,
        e = .tick (.ok op) ∧ op.status ≠ "DONE".toList) :
    waitForOperation (pre ++ .ctxDone c :: rest)
      = some (.error (.ctxDoneDuringWait c))
    ∧ (StopErr.ctxDoneDuringWait c).label
        = "timeout waiting for operation to complete: ".toList
    ∧ (∀ g : GoErr, StopErr.ctxDoneDuringWait c ≠ .pollRequestFailed g)
    ∧ (∀ g : GoErr, StopErr.ctxDoneDuringWait c ≠ .stopRequestFailed g) := by
  refine ⟨?_, rfl, ?_, ?_⟩
  · rw [waitForOperation_skips_pending _ _ hpre]
    rfl
  · intro g h
    cases h
  · intro g h
    cases h

/-- Claim C1 (counterexample): on caller cancellation the loop's error is
built by the same `fmt.Errorf("timeout waiting for operation to complete:
%w", ctx.Err())` as on timeout: the cancellation error carries the
timeout label, not a distinct cancellation label. -/
theorem waitForOperation_cancel_conflated_with_timeout :
    waitForOperation [WaitEvent.ctxDone .canceled]
      = some (.error (.ctxDoneDuringWait .canceled))
    ∧ (StopErr.ctxDoneDuringWait .canceled).label
        = (StopErr.ctxDoneDuringWait .deadlineExceeded).label
    ∧ (StopErr.ctxDoneDuringWait .canceled).label
        = "timeout waiting for operation to complete: ".toList :=
  ⟨rfl, rfl, rfl⟩

/-- Claim C1 (witness): a pending poll followed by the context deadline
resolves to the ctx-done error kind with cause deadline-exceeded. -/
theorem waitForOperation_ctx_done_uniform_label_witness :
    waitForOperation
        [WaitEvent.tick (.ok ⟨"o".toList, "RUNNING".toList, none⟩),
          .ctxDone .deadlineExceeded]
      = some (.error (.ctxDoneDuringWait .deadlineExceeded)) :=
  (waitForOperation_ctx_done_uniform_label
    [.tick (.ok ⟨"o".toList, "RUNNING".toList, none⟩)] [] .deadlineExceeded
    (by
      intro e he
      simp only [List.mem_singleton] at he
      subst he
      exact ⟨_, rfl, by decide⟩)).1

/-- Helper: once the cache holds a token valid past every remaining
caller's instant, every remaining serialized `fetchToken` is served from
the cache, leaving the state (hence the request count) unchanged. -/
theorem runFetchers_all_valid (env : TokenEnv) (ts : List Nat)
    (tm : TokenManager) (tok : TokenResponse)
    (hc : tm.currentToken = some tok) (hv : ∀ t ∈ ts, t < tm.expiresAt) :
    runFetchers env ts tm = (tm, ts.map fun _ => .ok tok.accessToken) := by
  induction ts with
  | nil => rfl
  | cons t rest ih =>
    have h1 : tokenIsValid tm t :=
      ⟨Option.isSome_iff_exists.mpr ⟨tok, hc⟩, hv t (List.mem_cons_self t rest)⟩
    have hstep : fetchToken env t tm = (tm, .ok tok.accessToken) := by
      unfold fetchToken
      rw [dif_pos h1]
      simp [hc]
    simp only [runFetchers, hstep]
    rw [ih fun t' ht' => hv t' (List.mem_cons_of_mem _ ht')]
    simp

/-- Claim C5: N ≥ 1 callers whose fast-path checks all failed against a
stale cache run their critical sections serialized; the first refreshes
(exactly one token-endpoint request) and caches the token, and — as long
as each later caller reaches its double-check before the fresh token's
expiry — every caller returns that same refreshed token.  Independently, a
caller whose fast-path check sees a valid cached token is served from the
cache with no state change and no request. -/
theorem GetToken_single_flight (resp : TokenResponse) (tm : TokenManager)
    (t₁ : Nat) (rest : List Nat)
    (hstale : ¬tokenIsValid tm t₁)
    (hfresh : ∀ t ∈ rest, t < t₁ + resp.expiresIn) :
    (runFetchers (.ok resp) (t₁ :: rest) tm).1.httpRequests
        = tm.httpRequests + 1
    ∧ (runFetchers (.ok resp) (t₁ :: rest) tm).1.currentToken = some resp
    ∧ (runFetchers (.ok resp) (t₁ :: rest) tm).2
        = (t₁ :: rest).map (fun _ => Except.ok resp.accessToken)
    ∧ (∀ (env : TokenEnv) (tm' : TokenManager) (tF tC : Nat),
        tokenIsValid tm' tF →
        (GetToken env tF tC tm').1 = tm'
        ∧ ∃ tok, tm'.currentToken = some tok
            ∧ (GetToken env tF tC tm').2 = .ok tok.accessToken) := by
  have hstep : fetchToken (.ok resp) t₁ tm
      = (⟨some resp, t₁ + resp.expiresIn, tm.httpRequests + 1⟩,
          .ok resp.accessToken) := by
    unfold fetchToken
    rw [dif_neg hstale]
  have hrest := runFetchers_all_valid (.ok resp) rest
    ⟨some resp, t₁ + resp.expiresIn, tm.httpRequests + 1⟩ resp rfl hfresh
  have hrun : runFetchers (.ok resp) (t₁ :: rest) tm
      = (⟨some resp, t₁ + resp.expiresIn, tm.httpRequests + 1⟩,
          .ok resp.accessToken :: rest.map fun _ => .ok resp.accessToken) := by
    simp only [runFetchers, hstep, hrest]
  refine ⟨by rw [hrun], by rw [hrun], by rw [hrun]; simp, ?_⟩
  intro env tm' tF tC hvalid
  constructor
  · unfold GetToken
    rw [dif_pos hvalid]
  · refine ⟨tm'.currentToken.get hvalid.1, (Option.some_get hvalid.1).symm, ?_⟩
    unfold GetToken
    rw [dif_pos hvalid]

/-- Claim C5 (witness): three callers at instants 10, 11, 12 against an
empty cache and a server answering with a 3600-second token: one request,
all three results are the refreshed token. -/
theorem GetToken_single_flight_witness :
    (runFetchers (.ok ⟨"tok".toList, 3600⟩) [10, 11, 12] ⟨none, 0, 0⟩).1.httpRequests
        = 0 + 1
    ∧ (runFetchers (.ok ⟨"tok".toList, 3600⟩) [10, 11, 12] ⟨none, 0, 0⟩).2
        = [10, 11, 12].map (fun _ => Except.ok "tok".toList) := by
  have h := GetToken_single_flight ⟨"tok".toList, 3600⟩ ⟨none, 0, 0⟩ 10 [11, 12]
    (by intro hx; exact absurd hx.2 (by decide)) (by decide)
  exact ⟨h.1, h.2.2.1⟩

/-- Helper: `mapGet` after `mapSet` at the written key. -/
theorem mapGet_mapSet_self {K V : Type} [DecidableEq K] (m : List (K × V))
    (k : K) (v : V) : mapGet (mapSet m k v) k = some v := by
  induction m with
  | nil => simp [mapSet, mapGet]
  | cons kv rest ih =>
    obtain ⟨k', v'⟩ := kv
    by_cases h : k = k'
    · simp [mapSet, mapGet, h]
    · simp [mapSet, mapGet, h, ih]

/-- Helper: int32 wrap is the identity inside int32 range. -/
theorem wrap32_eq_self {x : Int} (h1 : -2 ^ 31 ≤ x) (h2 : x ≤ 2 ^ 31 - 1) :
    wrap32 x = x := by
  unfold wrap32
  rw [Int.emod_eq_of_lt (by omega) (by omega)]
  omega

/-- Helper: a `ScaleUp` that stays in int32 range increments the entry. -/
theorem ScaleUp_step {K : Type} [DecidableEq K] (s : MockService K) (name : K)
    (v : Int) (hv : mapGet s.scale name = some v) (herr : s.scaleErr = false)
    (hlo : -2 ^ 31 ≤ v + 1) (hhi : v + 1 ≤ 2 ^ 31 - 1) :
    (s.ScaleUp name).1 = { s with scale := mapSet s.scale name (v + 1) } := by
  simp [MockService.ScaleUp, herr, hv, wrap32_eq_self hlo hhi]

/-- Helper: a `ScaleDown` at a positive in-range entry decrements it (and
bumps `opCount`) when failure injection is off. -/
theorem ScaleDown_step {K : Type} [DecidableEq K] (s : MockService K) (name : K)
    (v : Int) (hv : mapGet s.scale name = some v) (hfail : s.failAfter = 0)
    (hpos : 0 < v) (hlo : -2 ^ 31 ≤ v - 1) (hhi : v - 1 ≤ 2 ^ 31 - 1) :
    (s.ScaleDown name).1
      = { s with
            opCount := s.opCount + 1,
            scale := mapSet s.scale name (v - 1) } := by
  simp [MockService.ScaleDown, checkFailure, hfail, hv,
    wrap32_eq_self hlo hhi, not_le.mpr hpos]

/-- Helper: a serialized run of ups and downs on one resource, with no
failure injection and enough initial scale that no `ScaleDown` ever hits
the floor, moves the entry by `#ups - #downs`. -/
theorem runMockOps_scale {K : Type} [DecidableEq K] (name : K)
    (ops : List Bool) (s : MockService K) (v : Int)
    (hv : mapGet s.scale name = some v)
    (hfail : s.failAfter = 0) (herr : s.scaleErr = false)
    (hd : (ops.count false : Int) ≤ v)
    (hr : v + (ops.count true : Int) ≤ 2 ^ 31 - 1) :
    mapGet (runMockOps name s ops).scale name
      = some (v + ops.count true - ops.count false) := by
  induction ops generalizing s v with
  | nil => simpa using hv
  | cons b rest ih =>
    have hcnonneg : (0 : Int) ≤ (b :: rest).count false := Int.natCast_nonneg _
    cases b with
    | true =>
      have hct : (true :: rest).count true = rest.count true + 1 := by simp
      have hcf : (true :: rest).count false = rest.count false := by simp
      rw [hct] at hr
      rw [hcf] at hd
      have hv0 : (0 : Int) ≤ v := le_trans (Int.natCast_nonneg _) hd
      have hstep := ScaleUp_step s name v hv herr (by omega) (by push_cast at hr ⊢; omega)
      have hnext : runMockOps name s (true :: rest) = runMockOps name ((s.ScaleUp name).1) rest := by
        simp [runMockOps, mockStep]
      rw [hnext, hstep]
      have := ih { s with scale := mapSet s.scale name (v + 1) } (v + 1)
        (mapGet_mapSet_self _ _ _) hfail herr (by omega)
        (by push_cast at hr ⊢; omega)
      rw [this, hct, hcf]
      congr 1
      push_cast
      ring
    | false =>
      have hct : (false :: rest).count true = rest.count true := by simp
      have hcf : (false :: rest).count false = rest.count false + 1 := by simp
      rw [hct] at hr
      rw [hcf] at hd
      push_cast at hd
      have hpos : 0 < v := by omega
      have hstep := ScaleDown_step s name v hv hfail hpos (by omega)
        (by push_cast at hr ⊢; omega)
      have hnext : runMockOps name s (false :: rest)
          = runMockOps name ((s.ScaleDown name).1) rest := by
        simp [runMockOps, mockStep]
      rw [hnext, hstep]
      have := ih { s with
            opCount := s.opCount + 1,
            scale := mapSet s.scale name (v - 1) } (v - 1)
        (mapGet_mapSet_self _ _ _) hfail herr (by omega)
        (by push_cast at hr ⊢; omega)
      rw [this, hct, hcf]
      congr 1
      push_cast
      ring

/-- Claim C3 (amended): with failure injection off, a serialized
interleaving of M `ScaleUp`s and M `ScaleDown`s on a resource seeded at
scale N leaves the scale at N whenever M ≤ N (so that no `ScaleDown`
executes at scale 0, where it is a clamping no-op — see the
counterexample) and N+M stays in int32 range; and `Reset` restores the
configured initial scale map regardless of interim mutation. -/
theorem MockService_balanced_ops_reset {K : Type} [DecidableEq K]
    (cfg : MockConfig K) (name : K) (s : MockService K) (ops : List Bool)
    (M : Nat) (N : Int)
    (hv : mapGet s.scale name = some N)
    (hfail : s.failAfter = 0) (herr : s.scaleErr = false)
    (hups : ops.count true = M) (hdowns : ops.count false = M)
    (hNM : (M : Int) ≤ N) (hrange : N + (M : Int) ≤ 2 ^ 31 - 1) :
    mapGet (runMockOps name s ops).scale name = some N
    ∧ ∀ s' : MockService K, (MockService.Reset cfg s').scale = cfg.initialScale := by
  constructor
  · rw [runMockOps_scale name ops s N hv hfail herr
      (by rw [hdowns]; exact hNM) (by rw [hups]; exact hrange)]
    rw [hups, hdowns]
    congr 1
    ring
  · intro s'
    rfl

/-- Claim C3 (counterexample): seeded at scale 0, the balanced pair
`ScaleDown; ScaleUp` (M = 1) ends at scale 1, not 0: the `ScaleDown`
clamps at the floor as a no-op while the `ScaleUp` still increments. -/
theorem MockService_balanced_ops_counterexample :
    mapGet (runMockOps "r".toList
        (⟨[("r".toList, 0)], 0, 0, false⟩ : MockService (List Char))
        [false, true]).scale "r".toList = some 1
    ∧ mapGet (runMockOps "r".toList
        (⟨[("r".toList, 0)], 0, 0, false⟩ : MockService (List Char))
        [false, true]).scale "r".toList ≠ some 0 := by
  constructor
  · decide
  · decide

/-- Claim C3 (witness): seed 2, the balanced order down-up-up-down ends at
scale 2. -/
theorem MockService_balanced_ops_reset_witness :
    mapGet (runMockOps "r".toList
        (⟨[("r".toList, 2)], 0, 0, false⟩ : MockService (List Char))
        [false, true, true, false]).scale "r".toList = some 2 :=
  (MockService_balanced_ops_reset ⟨[("r".toList, 2)], 0⟩ "r".toList
    ⟨[("r".toList, 2)], 0, 0, false⟩ [false, true, true, false] 2 2
    (by decide) rfl rfl (by decide) (by decide) (by decide) (by decide)).1

end CloudSaver

